import Mathlib

/-!
A verification development for the TeeabendVoting repository
(`telegram_voting_bot`): a Telegram poll bot keeping an in-memory mapping
`polls_data : dict[str, dict]` of poll records, with handlers for creating
polls (`startpoll_command_handler`), recording votes via inline buttons
(`button_callback_handler`), ending polls manually
(`endpoll_command_handler`), a periodic expiration sweep
(`check_active_polls`), tallying (`pollstats_command_handler` /
`stats_execute_callback`), and JSON persistence (`save_polls_data` /
`load_polls_data`).

The embedding below translates the state-changing cores of those handlers
into pure Lean functions over an explicit poll map.  Chat-transport side
effects (sending/editing Telegram messages, logging, answering callback
queries) are dropped; every branch of the Python control flow that reads or
writes `polls_data` is kept.  Python `datetime` values are modelled by a
record of calendar fields compared lexicographically, as CPython does, and
`isoformat`/`fromisoformat` are modelled character-by-character on the
formats `datetime.isoformat` emits.
-/

namespace TeeabendVoting

/-- Models a CPython naive `datetime.datetime` by its calendar fields. -/
structure PyDateTime where
  year : Nat
  month : Nat
  day : Nat
  hour : Nat
  minute : Nat
  second : Nat
  microsecond : Nat
deriving DecidableEq, Repr

/-- CPython compares datetimes lexicographically on their field tuple;
this is the strict comparison `a < b`. -/
def PyDateTime.ltb (a b : PyDateTime) : Bool :=
  if a.year ≠ b.year then a.year < b.year
  else if a.month ≠ b.month then a.month < b.month
  else if a.day ≠ b.day then a.day < b.day
  else if a.hour ≠ b.hour then a.hour < b.hour
  else if a.minute ≠ b.minute then a.minute < b.minute
  else if a.second ≠ b.second then a.second < b.second
  else a.microsecond < b.microsecond

/-- Non-strict datetime comparison `a <= b`. -/
def PyDateTime.leb (a b : PyDateTime) : Bool :=
  a.ltb b || a == b

/-- Leap-year predicate of the proleptic Gregorian calendar used by
`datetime.timedelta` arithmetic. -/
def isLeapYear (y : Nat) : Bool :=
  y % 4 == 0 && (y % 100 != 0 || y % 400 == 0)

/-- Number of days in month `m` of year `y` (months numbered 1..12). -/
def daysInMonth (y m : Nat) : Nat :=
  if m == 2 then (if isLeapYear y then 29 else 28)
  else if m == 4 || m == 6 || m == 9 || m == 11 then 30
  else 31

/-- The calendar day after `(y, m, d)`. -/
def nextDay : Nat × Nat × Nat → Nat × Nat × Nat
  | (y, m, d) =>
    if d < daysInMonth y m then (y, m, d + 1)
    else if m < 12 then (y, m + 1, 1)
    else (y + 1, 1, 1)

/-- Advance a calendar date by `n` days. -/
def addDays : Nat × Nat × Nat → Nat → Nat × Nat × Nat
  | ymd, 0 => ymd
  | ymd, n + 1 => addDays (nextDay ymd) n

/-- Models `dt + datetime.timedelta(minutes = mins)` for a non-negative
whole number of minutes, carrying into hours and calendar days. -/
def PyDateTime.addMinutes (dt : PyDateTime) (mins : Nat) : PyDateTime :=
  let total := dt.hour * 60 + dt.minute + mins
  let ymd := addDays (dt.year, dt.month, dt.day) (total / 1440)
  { dt with
    year := ymd.1, month := ymd.2.1, day := ymd.2.2,
    hour := (total % 1440) / 60, minute := total % 60 }

/-- Digits of a decimal string, as the number it denotes; `none` when the
character list is empty or holds a non-digit.  Used to model parsing of the
numeric components of timestamps and of `int(...)` on a digit token. -/
def charsToNat? (l : List Char) : Option Nat :=
  if l ≠ [] ∧ l.all (·.isDigit) then
    some (l.foldl (fun a c => a * 10 + (c.toNat - 48)) 0)
  else none

/-- Models Python `int(token)` on an already-whitespace-stripped token:
an optional sign followed by decimal digits; `none` models `ValueError`. -/
def pyInt? (s : String) : Option Int :=
  match s.data with
  | '-' :: rest => (charsToNat? rest).map (fun n => -(n : Int))
  | '+' :: rest => (charsToNat? rest).map (fun n => (n : Int))
  | l => (charsToNat? l).map (fun n => (n : Int))

/-- Split a character list at every occurrence of `c` (occurrences are
dropped; empty segments are kept), modelling `str.split(sep)`. -/
def splitOnChar (c : Char) (l : List Char) : List (List Char) :=
  l.foldr
    (fun ch acc =>
      match acc with
      | [] => [[ch]]
      | cur :: rest => if ch = c then [] :: cur :: rest else (ch :: cur) :: rest)
    [[]]

/-- Models Python `str.split()` with no separator: split on blanks and drop
empty segments. -/
def splitWs (l : List Char) : List (List Char) :=
  (splitOnChar ' ' l).filter (· ≠ [])

/-- Decimal digit characters of `n`, left-padded with `'0'` to width `w`,
as in the zero-padded fields of `datetime.isoformat`. -/
def padChars (w n : Nat) : List Char :=
  let ds := (Nat.repr n).data
  List.replicate (w - ds.length) '0' ++ ds

/-- Models `datetime.isoformat()`: `YYYY-MM-DDTHH:MM:SS`, with a
`.ffffff` suffix exactly when `microsecond` is nonzero. -/
def PyDateTime.isoformat (d : PyDateTime) : String :=
  String.mk
    (padChars 4 d.year ++ '-' :: padChars 2 d.month ++ '-' :: padChars 2 d.day ++
      'T' :: padChars 2 d.hour ++ ':' :: padChars 2 d.minute ++ ':' :: padChars 2 d.second ++
      (if d.microsecond = 0 then [] else '.' :: padChars 6 d.microsecond))

/-- The Python exceptions that can escape the modelled code paths. -/
inductive PyExc where
  | valueError
deriving DecidableEq, Repr

instance {ε α : Type} [DecidableEq ε] [DecidableEq α] :
    DecidableEq (Except ε α) := fun x y =>
  match x, y with
  | .error a, .error b =>
    if h : a = b then isTrue (by rw [h])
    else isFalse (fun hc => h (by injection hc))
  | .ok a, .ok b =>
    if h : a = b then isTrue (by rw [h])
    else isFalse (fun hc => h (by injection hc))
  | .error _, .ok _ => isFalse (fun hc => Except.noConfusion hc)
  | .ok _, .error _ => isFalse (fun hc => Except.noConfusion hc)

/-- Parse the `HH:MM:SS` part of an ISO timestamp. -/
def parseHMS (l : List Char) : Except PyExc (Nat × Nat × Nat) :=
  match splitOnChar ':' l with
  | [hs, ms, ss] =>
    match charsToNat? hs, charsToNat? ms, charsToNat? ss with
    | some h, some mi, some s => .ok (h, mi, s)
    | _, _, _ => .error .valueError
  | _ => .error .valueError

/-- Models `datetime.fromisoformat` on the formats `isoformat` produces:
`YYYY-MM-DDTHH:MM:SS` with an optional `.ffffff` fraction.  Any string not
of this shape raises `ValueError`, as `fromisoformat` does on strings such
as `"not-a-date"`. -/
def fromisoformat (s : String) : Except PyExc PyDateTime :=
  match splitOnChar 'T' s.data with
  | [datePart, timePart] =>
    match splitOnChar '-' datePart with
    | [ys, ms, ds] =>
      match charsToNat? ys, charsToNat? ms, charsToNat? ds with
      | some y, some mo, some d =>
        match splitOnChar '.' timePart with
        | [hms] =>
          match parseHMS hms with
          | .ok (h, mi, s) => .ok ⟨y, mo, d, h, mi, s, 0⟩
          | .error e => .error e
        | [hms, frac] =>
          match parseHMS hms, charsToNat? frac with
          | .ok (h, mi, s), some us => .ok ⟨y, mo, d, h, mi, s, us⟩
          | _, _ => .error .valueError
        | _ => .error .valueError
      | _, _, _ => .error .valueError
    | _ => .error .valueError
  | _ => .error .valueError

/-- A key of the in-memory `votes` dict.  Votes recorded by
`button_callback_handler` use the integer Telegram user id; votes
reconstructed by `load_polls_data` carry the string key produced by JSON
serialization (`json.dump` stringifies non-string dict keys). -/
inductive PyKey where
  | int (n : Int)
  | str (s : String)
deriving DecidableEq, Repr

/-- One record of `polls_data`, with the fields documented in `bot.py`. -/
structure PollRecord where
  chat_id : Int
  creator_id : Int
  topic : String
  options : List String
  start_time : PyDateTime
  end_time : Option PyDateTime
  status : String
  votes : List (PyKey × Int)
  message_id : Option Int
deriving DecidableEq, Repr

/-- The `polls_data` mapping, as an insertion-ordered association list,
matching Python dict iteration order. -/
abbrev PollsMap := List (String × PollRecord)

/-- Dict lookup `polls_data[poll_id]` / membership `poll_id in polls_data`
(Python dict keys are unique; on the association list the first binding is
authoritative). -/
def dictGet? : PollsMap → String → Option PollRecord
  | [], _ => none
  | e :: rest, k => if e.1 = k then some e.2 else dictGet? rest k

/-- In-place mutation of the record stored at key `k` (Python mutates the
dict value object; positions and other keys are untouched). -/
def dictSet : PollsMap → String → PollRecord → PollsMap
  | [], _, _ => []
  | e :: rest, k, v => (if e.1 = k then (k, v) else e) :: dictSet rest k v

/-- Dict assignment `polls_data[poll_id] = record`: replaces the value when
the key is present, otherwise appends in insertion order. -/
def dictInsert (pm : PollsMap) (k : String) (v : PollRecord) : PollsMap :=
  if pm.any (fun e => e.1 = k) then dictSet pm k v else pm ++ [(k, v)]

/-- Python list indexing `l[i]` restricted to the in-bounds cases the
handlers reach (negative indices wrap from the end, as in Python; an index
out of range is mapped to `""` where Python would raise `IndexError` —
the store invariant keeps all recorded indices in bounds). -/
def pyListGet (l : List String) (i : Int) : String :=
  if i < 0 then l.getD (l.length - (-i).toNat) ""
  else l.getD i.toNat ""

/-- The lazy-expiry condition of the vote path:
`poll["end_time"] and datetime.now() > poll["end_time"]` (an unset
`end_time` is `None`, which is falsy). -/
def pastEndStrict (poll : PollRecord) (now : PyDateTime) : Bool :=
  match poll.end_time with
  | some e => e.ltb now
  | none => false

/-- The sweep condition: `poll["end_time"]` set and
`datetime.now() >= poll["end_time"]`. -/
def pastEndLax (poll : PollRecord) (now : PyDateTime) : Bool :=
  match poll.end_time with
  | some e => e.leb now
  | none => false

/-- The outcome reported to the voter by `button_callback_handler`
(the `query.answer(...)` texts, one constructor per reachable branch of
the vote path once the callback data has been parsed). -/
inductive VoteOutcome where
  | pollNotFound
  | pollNotActive
  | pollExpired
  | alreadyVoted (previous_option_text : String)
  | invalidOption
  | accepted (selected_option_text : String)
deriving DecidableEq, Repr

/-- The state-changing core of `button_callback_handler`
(`handlers/callback_handlers.py`, lines 30-79): existence check, status
check, lazy expiration check (`poll["end_time"] and datetime.now() >
poll["end_time"]`, which closes the poll with status `"closed"`),
duplicate-voter check, option-bounds check, then vote recording.  The
transport layer has already split the callback data; `option_index` is
the parsed integer. -/
def button_callback_handler (pm : PollsMap) (user_id : Int) (poll_id : String)
    (option_index : Int) (now : PyDateTime) : VoteOutcome × PollsMap :=
  match dictGet? pm poll_id with
  | none => (.pollNotFound, pm)
  | some poll =>
    if poll.status ≠ "active" then (.pollNotActive, pm)
    else if pastEndStrict poll now then
      (.pollExpired, dictSet pm poll_id { poll with status := "closed" })
    else
      match (poll.votes.find? (fun kv => kv.1 = PyKey.int user_id)) with
      | some kv => (.alreadyVoted (pyListGet poll.options kv.2), pm)
      | none =>
        if 0 ≤ option_index ∧ option_index < (poll.options.length : Int) then
          (.accepted (pyListGet poll.options option_index),
            dictSet pm poll_id
              { poll with votes := poll.votes ++ [(PyKey.int user_id, option_index)] })
        else (.invalidOption, pm)

/-- The outcome reported by `endpoll_command_handler`. -/
inductive EndOutcome where
  | ended
  | pollNotFound
  | notCreator
  | pollNotActive
deriving DecidableEq, Repr

/-- The state-changing core of `endpoll_command_handler`
(`handlers/command_handlers.py`, lines 244-271): existence check, creator
check, status check, then `status = "ended_manually"` and
`end_time = datetime.now()`. -/
def endpoll_command_handler (pm : PollsMap) (user_id : Int) (poll_id : String)
    (now : PyDateTime) : EndOutcome × PollsMap :=
  match dictGet? pm poll_id with
  | none => (.pollNotFound, pm)
  | some poll =>
    if poll.creator_id ≠ user_id then (.notCreator, pm)
    else if poll.status ≠ "active" then (.pollNotActive, pm)
    else
      (.ended, dictSet pm poll_id
        { poll with status := "ended_manually", end_time := some now })

/-- The state-changing core of the periodic sweep `check_active_polls`
(`bot.py`, lines 842-883): every poll with `status == "active"` and a set
`end_time` with `datetime.now() >= end_time` gets
`status = "ended_time_expired"`; everything else is untouched. -/
def check_active_polls (pm : PollsMap) (now : PyDateTime) : PollsMap :=
  pm.map (fun e =>
    if e.2.status = "active" ∧ pastEndLax e.2 now then
      (e.1, { e.2 with status := "ended_time_expired" })
    else e)

/-- The outcome of the creation path of `startpoll_command_handler`. -/
inductive CreateOutcome where
  | created
  | usageError
  | tooFewOptions
  | negativeDuration
deriving DecidableEq, Repr

/-- The duration-determination step of `startpoll_command_handler`
(`handlers/command_handlers.py`, lines 49-72): the default is
`DEFAULT_POLL_DURATION_MINUTES = 5`; a nonempty non-quoted remainder is
split on whitespace and its first token fed to `int(...)`; a negative
value is rejected (`.error ()`); a `ValueError` (unparseable token) or an
`IndexError` (whitespace-only remainder) falls back to the default. -/
def parse_duration (non_quoted : String) : Except Unit Int :=
  if non_quoted = "" then .ok 5
  else
    match splitWs non_quoted.data with
    | [] => .ok 5
    | tok :: _ =>
      match pyInt? (String.mk tok) with
      | none => .ok 5
      | some d => if d < 0 then .error () else .ok d

/-- The state-changing core of `startpoll_command_handler`
(`handlers/command_handlers.py`, lines 26-112): `quoted_parts` is the list
of double-quoted arguments (topic first, then options) and `non_quoted`
the remaining argument text; fewer than three quoted parts, or fewer than
two options, reject with a usage message; a negative parsed duration
rejects; otherwise a fresh record with `status = "active"`, empty `votes`,
and `end_time = start_time + timedelta(minutes = duration)` exactly when
the duration is positive is inserted under the freshly generated id. -/
def startpoll_command_handler (pm : PollsMap) (chat_id creator_id : Int)
    (quoted_parts : List String) (non_quoted : String) (now : PyDateTime)
    (new_id : String) : CreateOutcome × PollsMap :=
  if quoted_parts.length < 3 then (.usageError, pm)
  else
    let topic := quoted_parts.headD ""
    let options := quoted_parts.tail
    if options.length < 2 then (.tooFewOptions, pm)
    else
      match parse_duration non_quoted with
      | .error _ => (.negativeDuration, pm)
      | .ok duration_minutes =>
        let end_time : Option PyDateTime :=
          if duration_minutes > 0 then some (now.addMinutes duration_minutes.toNat)
          else none
        (.created, dictInsert pm new_id
          { chat_id := chat_id, creator_id := creator_id, topic := topic,
            options := options, start_time := now, end_time := end_time,
            status := "active", votes := [], message_id := none })

/-- The per-option counting loop of `pollstats_command_handler` /
`stats_execute_callback`: starting from `[0] * len(options)`, each vote
whose option index is in bounds increments its slot. -/
def vote_counts (options : List String) (votes : List (PyKey × Int)) : List Nat :=
  votes.foldl
    (fun counts kv =>
      if 0 ≤ kv.2 ∧ kv.2 < (options.length : Int) then
        counts.set kv.2.toNat (counts.getD kv.2.toNat 0 + 1)
      else counts)
    (List.replicate options.length 0)

/-- `total_votes = sum(vote_counts)`. -/
def total_votes (options : List String) (votes : List (PyKey × Int)) : Nat :=
  (vote_counts options votes).sum

/-- The exact percentage `count / total * 100` computed for each option
when `total > 0`. -/
def vote_percentage (count total : Nat) : ℚ :=
  (count : ℚ) / (total : ℚ) * 100

/-- Two-decimal rounding, modelling the `f"{percentage:.2f}"` display of
the stats messages on the values at issue. -/
def round2 (q : ℚ) : ℚ :=
  (round (q * 100) : ℤ) / 100

/-- One poll record after `convert_datetimes_to_iso`: datetimes replaced
by their ISO strings, everything else (including the `votes` dict and its
keys) untouched. -/
structure PollIso where
  chat_id : Int
  creator_id : Int
  topic : String
  options : List String
  start_time : String
  end_time : Option String
  status : String
  votes : List (PyKey × Int)
  message_id : Option Int
deriving DecidableEq, Repr

/-- `convert_datetimes_to_iso` (`bot.py`, lines 119-126): replace the
`datetime` values of `start_time` and `end_time` by `isoformat` strings;
an unset `end_time` (`None`) stays unset. -/
def convert_datetimes_to_iso (p : PollRecord) : PollIso :=
  { chat_id := p.chat_id, creator_id := p.creator_id, topic := p.topic,
    options := p.options, start_time := p.start_time.isoformat,
    end_time := p.end_time.map PyDateTime.isoformat, status := p.status,
    votes := p.votes, message_id := p.message_id }

/-- One poll record as it sits in the JSON file: every dict key is a JSON
object key, hence a string. -/
structure PollJson where
  chat_id : Int
  creator_id : Int
  topic : String
  options : List String
  start_time : String
  end_time : Option String
  status : String
  votes : List (String × Int)
  message_id : Option Int
deriving DecidableEq, Repr

/-- How `json.dump` encodes a `votes` dict key: a string key is written as
is, an integer key is written as its decimal text (and read back by
`json.load` as that string). -/
def jsonKey : PyKey → String
  | .int n => toString n
  | .str s => s

/-- The effect of `json.dump` followed by `json.load` on one converted
poll record: numbers, strings, string lists and `null` survive unchanged,
but the non-string keys of the nested `votes` object are stringified. -/
def json_roundtrip_record (p : PollIso) : PollJson :=
  { chat_id := p.chat_id, creator_id := p.creator_id, topic := p.topic,
    options := p.options, start_time := p.start_time,
    end_time := p.end_time, status := p.status,
    votes := p.votes.map (fun kv => (jsonKey kv.1, kv.2)),
    message_id := p.message_id }

/-- `save_polls_data` (`bot.py`, lines 155-167), observed through the JSON
file it writes: each poll is passed through `convert_datetimes_to_iso` and
serialized; the result is the parsed content of `DATA_FILE`. -/
def save_polls_data (pm : PollsMap) : List (String × PollJson) :=
  pm.map (fun e => (e.1, json_roundtrip_record (convert_datetimes_to_iso e.2)))

/-- `convert_iso_to_datetimes` (`bot.py`, lines 128-135) applied to a
loaded JSON record: the `start_time` and `end_time` strings are parsed by
`datetime.fromisoformat`, which raises `ValueError` on a malformed string;
all other fields — including the string voter keys of `votes` — are kept
as loaded. -/
def convert_iso_to_datetimes (p : PollJson) : Except PyExc PollRecord :=
  match fromisoformat p.start_time with
  | .error e => .error e
  | .ok st =>
    match p.end_time with
    | none =>
      .ok { chat_id := p.chat_id, creator_id := p.creator_id, topic := p.topic,
            options := p.options, start_time := st, end_time := none,
            status := p.status,
            votes := p.votes.map (fun kv => (PyKey.str kv.1, kv.2)),
            message_id := p.message_id }
    | some es =>
      match fromisoformat es with
      | .error e => .error e
      | .ok et =>
        .ok { chat_id := p.chat_id, creator_id := p.creator_id, topic := p.topic,
              options := p.options, start_time := st, end_time := some et,
              status := p.status,
              votes := p.votes.map (fun kv => (PyKey.str kv.1, kv.2)),
              message_id := p.message_id }

/-- The dict comprehension of `load_polls_data`, converting loaded records
in iteration order; the first exception raised propagates. -/
def convert_loaded : List (String × PollJson) → Except PyExc PollsMap
  | [] => .ok []
  | (k, pj) :: rest =>
    match convert_iso_to_datetimes pj with
    | .error e => .error e
    | .ok p =>
      match convert_loaded rest with
      | .error e => .error e
      | .ok ps => .ok ((k, p) :: ps)

/-- What `load_polls_data` (`bot.py`, lines 137-153) finds on disk:
`none` models a missing `DATA_FILE`; `some (.error ())` a file whose read
or JSON decode raises one of the caught exceptions (`json.JSONDecodeError`,
`IOError`, `TypeError`); `some (.ok entries)` a successfully decoded JSON
object of poll records. -/
def load_polls_data (file : Option (Except Unit (List (String × PollJson)))) :
    Except PyExc PollsMap :=
  match file with
  | none => .ok []
  | some (.error _) => .ok []
  | some (.ok entries) => convert_loaded entries

/-- Transcription of the check order stated by the specification for
`RecordVote`: existence check, then status check, then lazy expiration
check, then duplicate-voter check, then option-bounds check; the reported
outcome is determined by the first check that fails.  Written from the
spec's words, to be compared with `button_callback_handler`. -/
def recordVoteSpecOutcome (pm : PollsMap) (user_id : Int) (poll_id : String)
    (option_index : Int) (now : PyDateTime) : VoteOutcome :=
  match dictGet? pm poll_id with
  | none => .pollNotFound
  | some poll =>
    if poll.status ≠ "active" then .pollNotActive
    else if pastEndStrict poll now then .pollExpired
    else
      match poll.votes.find? (fun kv => kv.1 = PyKey.int user_id) with
      | some kv => .alreadyVoted (pyListGet poll.options kv.2)
      | none =>
        if 0 ≤ option_index ∧ option_index < (poll.options.length : Int) then
          .accepted (pyListGet poll.options option_index)
        else .invalidOption

/-- A single `RecordVote` request: voter, poll, chosen option index, and
the wall-clock time `datetime.now()` observed by the handler. -/
structure VoteCall where
  user_id : Int
  poll_id : String
  option_index : Int
  now : PyDateTime

/-- A sequence of `RecordVote` calls applied in order. -/
def runVotes (pm : PollsMap) : List VoteCall → PollsMap
  | [] => pm
  | c :: rest =>
    runVotes (button_callback_handler pm c.user_id c.poll_id c.option_index c.now).2 rest

/-- Well-formedness of one poll's `votes` dict: voter keys are pairwise
distinct and every recorded option index is in bounds. -/
def VotesWF (p : PollRecord) : Prop :=
  (p.votes.map Prod.fst).Nodup ∧
    ∀ kv ∈ p.votes, 0 ≤ kv.2 ∧ kv.2 < (p.options.length : Int)

/-- Well-formedness of the whole store: every poll's votes are
well-formed. -/
def StoreWF (pm : PollsMap) : Prop := ∀ e ∈ pm, VotesWF e.2

/-- Fixture timestamps: a creation instant, the scheduled deadline five
minutes later, and an instant past the deadline. -/
def dt0 : PyDateTime := ⟨2024, 1, 2, 3, 4, 5, 0⟩

/-- The scheduled deadline of the fixture poll, `dt0 + 5 minutes`. -/
def dt1 : PyDateTime := ⟨2024, 1, 2, 3, 9, 5, 0⟩

/-- An instant strictly after the deadline `dt1`. -/
def dt2 : PyDateTime := ⟨2024, 1, 2, 4, 0, 0, 0⟩

/-- A fixture poll: active, two options, scheduled to end at `dt1`, no
votes yet. -/
def pollA : PollRecord :=
  ⟨10, 20, "T", ["a", "b"], dt0, some dt1, "active", [], none⟩

/-- A fixture store holding only `pollA` under id `"p1"`. -/
def pmA : PollsMap := [("p1", pollA)]

/-- A fixture poll carrying one recorded vote by integer voter id 7. -/
def pollV : PollRecord :=
  ⟨10, 20, "T", ["a", "b"], dt0, some dt1, "active", [(PyKey.int 7, 0)], none⟩

/-- A persisted record whose `start_time` string is not a valid ISO
timestamp: valid JSON, but `datetime.fromisoformat` raises `ValueError`
on it. -/
def badJson : PollJson :=
  ⟨10, 20, "T", ["a", "b"], "not-a-date", none, "active", [], none⟩

/-- Looking up after `dictSet`: the mutated key reads back the new value
when it was present (and stays absent otherwise); other keys are
untouched. -/
theorem dictGet?_dictSet (pm : PollsMap) (k kq : String) (v : PollRecord) :
    dictGet? (dictSet pm k v) kq =
      if kq = k then (dictGet? pm k).map (fun _ => v) else dictGet? pm kq := by
  induction pm with
  | nil => simp [dictGet?, dictSet]
  | cons e rest ih =>
    by_cases h1 : e.1 = k
    · by_cases h2 : kq = k
      · subst h2
        simp [dictGet?, dictSet, h1, ih]
      · have h3 : ¬k = kq := fun hc => h2 hc.symm
        have h4 : ¬e.1 = kq := by rw [h1]; exact h3
        simp [dictGet?, dictSet, h1, h2, h3, h4, ih]
    · by_cases h2 : kq = k
      · subst h2
        simp [dictGet?, dictSet, h1, ih]
      · simp [dictGet?, dictSet, h1, h2, ih]

/-- Lookup distributes over list append, first list first. -/
theorem dictGet?_append (l1 l2 : PollsMap) (k : String) :
    dictGet? (l1 ++ l2) k =
      match dictGet? l1 k with
      | some v => some v
      | none => dictGet? l2 k := by
  induction l1 with
  | nil => simp [dictGet?]
  | cons e rest ih => by_cases h : e.1 = k <;> simp [dictGet?, h, ih]

/-- A key whose membership test is false is absent. -/
theorem dictGet?_eq_none_of_any_false (pm : PollsMap) (k : String)
    (h : pm.any (fun e => e.1 = k) = false) : dictGet? pm k = none := by
  induction pm with
  | nil => rfl
  | cons e rest ih =>
    simp only [List.any_cons, Bool.or_eq_false_iff] at h
    have h1 : ¬e.1 = k := by simpa using h.1
    simp [dictGet?, h1, ih h.2]

/-- A key whose membership test is true is bound to some record. -/
theorem dictGet?_isSome_of_any_true (pm : PollsMap) (k : String)
    (h : pm.any (fun e => e.1 = k) = true) : ∃ p, dictGet? pm k = some p := by
  induction pm with
  | nil => simp at h
  | cons e rest ih =>
    by_cases h1 : e.1 = k
    · exact ⟨e.2, by simp [dictGet?, h1]⟩
    · simp only [List.any_cons] at h
      have hr : rest.any (fun e => e.1 = k) = true := by
        simpa [h1] using h
      rcases ih hr with ⟨p, hp⟩
      exact ⟨p, by simp [dictGet?, h1, hp]⟩

/-- Dict assignment makes the assigned key read back the assigned value. -/
theorem dictGet?_dictInsert_self (pm : PollsMap) (k : String) (v : PollRecord) :
    dictGet? (dictInsert pm k v) k = some v := by
  unfold dictInsert
  by_cases h : pm.any (fun e => e.1 = k) = true
  · rw [if_pos h, dictGet?_dictSet]
    rcases dictGet?_isSome_of_any_true pm k h with ⟨p, hp⟩
    simp [hp]
  · have hf : pm.any (fun e => e.1 = k) = false := by
      cases hx : pm.any (fun e => e.1 = k) with
      | false => rfl
      | true => exact absurd hx h
    rw [if_neg h, dictGet?_append, dictGet?_eq_none_of_any_false pm k hf]
    simp [dictGet?]

/-- What the sweep does to each looked-up record: the record is rewritten
to `"ended_time_expired"` exactly under the sweep condition, in place. -/
theorem dictGet?_check_active_polls (pm : PollsMap) (now : PyDateTime) (k : String) :
    dictGet? (check_active_polls pm now) k =
      (dictGet? pm k).map (fun p =>
        if p.status = "active" ∧ pastEndLax p now then
          { p with status := "ended_time_expired" }
        else p) := by
  induction pm with
  | nil => rfl
  | cons e rest ih =>
    simp only [check_active_polls, List.map_cons] at *
    by_cases h : e.2.status = "active" ∧ pastEndLax e.2 now
    · rw [if_pos h]
      by_cases h2 : e.1 = k
      · simp only [dictGet?, h2, if_pos rfl, if_pos trivial]
        simp [h]
      · simp [dictGet?, h2, ih]
    · rw [if_neg h]
      by_cases h2 : e.1 = k
      · simp only [dictGet?, h2, if_pos rfl]
        simp [h]
      · simp [dictGet?, h2, ih]

/-- C1, counterexample: the claim demands that a vote arriving at
`at_time >= end_time` is rejected as expired, but the code compares with
strict `datetime.now() > poll["end_time"]`.  At `at_time = end_time`
exactly (here `dt1`, the deadline of the active fixture poll `pollA`), the
vote is accepted, an entry is added to `votes`, and the poll stays
`"active"`. -/
theorem recordVote_at_exact_deadline_accepts :
    pollA.status = "active" ∧ pollA.end_time = some dt1 ∧
    PyDateTime.leb dt1 dt1 = true ∧ dictGet? pmA "p1" = some pollA ∧
    button_callback_handler pmA 1 "p1" 0 dt1 =
      (.accepted "a", [("p1", { pollA with votes := [(PyKey.int 1, 0)] })]) := by
  refine ⟨rfl, rfl, by decide, by decide, by decide⟩

/-- C1 (amended): for every poll that is Active with a set `end_time`, a
`RecordVote` call arriving strictly after the deadline (the code's
comparison is `datetime.now() > end_time`) reports `PollExpired`, adds no
entry to `votes`, and transitions the poll to the terminal `"closed"`
status (the code's lazy-expiry name for time-based expiration), so
`status != Active` holds afterward. -/
theorem recordVote_past_deadline_expires (pm : PollsMap) (pid : String)
    (p : PollRecord) (u idx : Int) (now e : PyDateTime)
    (hfind : dictGet? pm pid = some p) (hact : p.status = "active")
    (hend : p.end_time = some e) (hlt : e.ltb now = true) :
    button_callback_handler pm u pid idx now =
      (.pollExpired, dictSet pm pid { p with status := "closed" }) ∧
    dictGet? (button_callback_handler pm u pid idx now).2 pid =
      some { p with status := "closed" } ∧
    ({ p with status := "closed" } : PollRecord).votes = p.votes ∧
    ({ p with status := "closed" } : PollRecord).status ≠ "active" := by
  have hs : ¬p.status ≠ "active" := fun hc => hc hact
  have hp : pastEndStrict p now = true := by
    unfold pastEndStrict
    rw [hend]
    exact hlt
  have hbtn : button_callback_handler pm u pid idx now =
      (.pollExpired, dictSet pm pid { p with status := "closed" }) := by
    simp only [button_callback_handler, hfind]
    rw [if_neg hs, if_pos hp]
  refine ⟨hbtn, ?_, rfl, by simp⟩
  rw [hbtn, dictGet?_dictSet]
  simp [hfind]

/-- C1 witness: the fixture poll, voted on at `dt2` (strictly past its
deadline `dt1`), is expired and closed without recording the vote. -/
theorem recordVote_past_deadline_expires_witness :
    button_callback_handler pmA 1 "p1" 0 dt2 =
      (.pollExpired, dictSet pmA "p1" { pollA with status := "closed" }) ∧
    dictGet? (button_callback_handler pmA 1 "p1" 0 dt2).2 "p1" =
      some { pollA with status := "closed" } ∧
    ({ pollA with status := "closed" } : PollRecord).votes = pollA.votes ∧
    ({ pollA with status := "closed" } : PollRecord).status ≠ "active" :=
  recordVote_past_deadline_expires pmA "p1" pollA 1 0 dt2 dt1
    (by decide) rfl rfl (by decide)

/-- C4: `check_active_polls` transitions exactly the polls that are
Active with a set `end_time` that is `<= at_time`, rewriting only their
status (to `"ended_time_expired"`, the code's ExpiredByTime status); any
poll not meeting the condition is returned entirely unchanged, and keys
absent before stay absent. -/
theorem check_active_polls_expires_exactly (pm : PollsMap) (now : PyDateTime)
    (pid : String) (p : PollRecord) (hfind : dictGet? pm pid = some p) :
    (p.status = "active" ∧ pastEndLax p now = true →
      dictGet? (check_active_polls pm now) pid =
        some { p with status := "ended_time_expired" }) ∧
    (¬(p.status = "active" ∧ pastEndLax p now = true) →
      dictGet? (check_active_polls pm now) pid = some p) ∧
    (∀ k, dictGet? pm k = none → dictGet? (check_active_polls pm now) k = none) := by
  refine ⟨?_, ?_, ?_⟩
  · intro h
    rw [dictGet?_check_active_polls, hfind]
    simp [h]
  · intro h
    rw [dictGet?_check_active_polls, hfind]
    simp [h]
  · intro k hk
    rw [dictGet?_check_active_polls, hk]
    rfl

/-- C4 witness: sweeping the fixture store at `dt2` (past the deadline
`dt1`) marks the fixture poll `"ended_time_expired"` with all other
fields intact. -/
theorem check_active_polls_expires_exactly_witness :
    dictGet? (check_active_polls pmA dt2) "p1" =
      some { pollA with status := "ended_time_expired" } :=
  (check_active_polls_expires_exactly pmA dt2 "p1" pollA (by decide)).1
    ⟨rfl, by decide⟩

/-- C5: `endpoll_command_handler` succeeds (outcome `ended`) exactly
when the poll exists, the requester is its creator, and its status is
`"active"`; on success it sets `status = "ended_manually"` and overwrites
`end_time` with the call time; on failure the store is unchanged; and a
second call on the same poll by the same user reports `pollNotActive`
and leaves the store unchanged. -/
theorem endpoll_succeeds_iff_creator_active (pm : PollsMap) (u : Int)
    (pid : String) (now : PyDateTime) :
    ((endpoll_command_handler pm u pid now).1 = .ended ↔
      ∃ p, dictGet? pm pid = some p ∧ p.creator_id = u ∧ p.status = "active") ∧
    (∀ p, dictGet? pm pid = some p → p.creator_id = u → p.status = "active" →
      endpoll_command_handler pm u pid now =
        (.ended, dictSet pm pid
          { p with status := "ended_manually", end_time := some now })) ∧
    ((endpoll_command_handler pm u pid now).1 ≠ .ended →
      (endpoll_command_handler pm u pid now).2 = pm) ∧
    (∀ now2, (endpoll_command_handler pm u pid now).1 = .ended →
      endpoll_command_handler (endpoll_command_handler pm u pid now).2 u pid now2 =
        (.pollNotActive, (endpoll_command_handler pm u pid now).2)) := by
  cases hg : dictGet? pm pid with
  | none =>
    have hval : endpoll_command_handler pm u pid now = (.pollNotFound, pm) := by
      simp only [endpoll_command_handler, hg]
    refine ⟨?_, ?_, ?_, ?_⟩
    · rw [hval]
      simp
    · intro p hp
      exact Option.noConfusion hp
    · intro _
      rw [hval]
    · intro now2 h
      rw [hval] at h
      cases h
  | some p =>
    by_cases hc : p.creator_id = u
    · by_cases hs : p.status = "active"
      · have hval : endpoll_command_handler pm u pid now =
            (.ended, dictSet pm pid
              { p with status := "ended_manually", end_time := some now }) := by
          simp only [endpoll_command_handler, hg]
          rw [if_neg (fun hn => hn hc), if_neg (fun hn => hn hs)]
        refine ⟨?_, ?_, ?_, ?_⟩
        · rw [hval]
          exact ⟨fun _ => ⟨p, rfl, hc, hs⟩, fun _ => rfl⟩
        · intro p' hp' _ _
          injection hp' with hpp
          subst hpp
          exact hval
        · intro hne
          rw [hval] at hne
          exact absurd rfl hne
        · intro now2 _
          rw [hval]
          have hq : dictGet? (dictSet pm pid
              { p with status := "ended_manually", end_time := some now }) pid =
              some { p with status := "ended_manually", end_time := some now } := by
            rw [dictGet?_dictSet]
            simp [hg]
          simp only [endpoll_command_handler, hq]
          rw [if_neg (fun hn => hn hc), if_pos (by simp)]
      · have hval : endpoll_command_handler pm u pid now = (.pollNotActive, pm) := by
          simp only [endpoll_command_handler, hg]
          rw [if_neg (fun hn => hn hc), if_pos hs]
        refine ⟨?_, ?_, ?_, ?_⟩
        · rw [hval]
          constructor
          · intro h
            cases h
          · rintro ⟨p', hp', -, hs'⟩
            injection hp' with hpp
            subst hpp
            exact absurd hs' hs
        · intro p' hp' _ hs'
          injection hp' with hpp
          subst hpp
          exact absurd hs' hs
        · intro _
          rw [hval]
        · intro now2 h
          rw [hval] at h
          cases h
    · have hval : endpoll_command_handler pm u pid now = (.notCreator, pm) := by
        simp only [endpoll_command_handler, hg]
        rw [if_pos hc]
      refine ⟨?_, ?_, ?_, ?_⟩
      · rw [hval]
        constructor
        · intro h
          cases h
        · rintro ⟨p', hp', hc', -⟩
          injection hp' with hpp
          subst hpp
          exact absurd hc' hc
      · intro p' hp' hc' _
        injection hp' with hpp
        subst hpp
        exact absurd hc' hc
      · intro _
        rw [hval]
      · intro now2 h
        rw [hval] at h
        cases h

/-- C5 witness: the creator (id 20) ends the fixture poll; a second call
at a later time reports `pollNotActive` and changes nothing. -/
theorem endpoll_succeeds_iff_creator_active_witness :
    endpoll_command_handler pmA 20 "p1" dt0 =
      (.ended, dictSet pmA "p1"
        { pollA with status := "ended_manually", end_time := some dt0 }) ∧
    endpoll_command_handler (endpoll_command_handler pmA 20 "p1" dt0).2 20 "p1" dt2 =
      (.pollNotActive, (endpoll_command_handler pmA 20 "p1" dt0).2) := by
  have h := endpoll_succeeds_iff_creator_active pmA 20 "p1" dt0
  have h1 := h.2.1 pollA (by decide) rfl rfl
  refine ⟨h1, h.2.2.2 dt2 ?_⟩
  rw [h1]

/-- Evaluation of the creation handler when the option count is
sufficient and the duration parse yields `d`. -/
theorem startpoll_command_handler_ok (pm : PollsMap) (chat creator : Int)
    (topic : String) (options : List String) (non_quoted : String) (d : Int)
    (now : PyDateTime) (nid : String)
    (h2 : 2 ≤ options.length) (hdur : parse_duration non_quoted = .ok d) :
    startpoll_command_handler pm chat creator (topic :: options) non_quoted now nid =
      (.created, dictInsert pm nid
        { chat_id := chat, creator_id := creator, topic := topic,
          options := options, start_time := now,
          end_time := if 0 < d then some (now.addMinutes d.toNat) else none,
          status := "active", votes := [], message_id := none }) := by
  have hge : ¬(topic :: options).length < 3 := by
    simp only [List.length_cons]
    omega
  have hlt : ¬options.length < 2 := by omega
  simp only [startpoll_command_handler]
  rw [if_neg hge]
  simp only [List.headD_cons, List.tail_cons]
  rw [if_neg hlt, hdur]

/-- C6: with at least two options and a parsed non-negative duration,
creation inserts a fresh poll that is `"active"`, has empty `votes`, and
has `end_time` set to `start_time + duration` exactly when the duration
is positive (`duration = 0` leaves `end_time` unset); with fewer than two
options, or with a negative duration, creation is rejected and the store
is unchanged; and the duration parse rejects exactly the parseable
negative tokens. -/
theorem startpoll_creates_active_poll (pm : PollsMap) (chat creator : Int)
    (topic : String) (options : List String) (non_quoted : String) (d : Int)
    (now : PyDateTime) (nid : String) :
    (2 ≤ options.length → parse_duration non_quoted = .ok d →
      0 ≤ d ∧
      startpoll_command_handler pm chat creator (topic :: options) non_quoted now nid =
        (.created, dictInsert pm nid
          { chat_id := chat, creator_id := creator, topic := topic,
            options := options, start_time := now,
            end_time := if 0 < d then some (now.addMinutes d.toNat) else none,
            status := "active", votes := [], message_id := none }) ∧
      dictGet?
          (startpoll_command_handler pm chat creator (topic :: options) non_quoted now nid).2
          nid =
        some
          { chat_id := chat, creator_id := creator, topic := topic,
            options := options, start_time := now,
            end_time := if 0 < d then some (now.addMinutes d.toNat) else none,
            status := "active", votes := [], message_id := none }) ∧
    (options.length < 2 →
      startpoll_command_handler pm chat creator (topic :: options) non_quoted now nid =
        (.usageError, pm)) ∧
    (2 ≤ options.length → parse_duration non_quoted = .error () →
      startpoll_command_handler pm chat creator (topic :: options) non_quoted now nid =
        (.negativeDuration, pm)) ∧
    (∀ tok rest d', splitWs non_quoted.data = tok :: rest →
      pyInt? (String.mk tok) = some d' → d' < 0 →
      parse_duration non_quoted = .error ()) := by
  refine ⟨?_, ?_, ?_, ?_⟩
  · intro h2 hdur
    have hd0 : 0 ≤ d := by
      unfold parse_duration at hdur
      by_cases he : non_quoted = ""
      · rw [if_pos he] at hdur
        injection hdur with h
        omega
      · rw [if_neg he] at hdur
        split at hdur
        · injection hdur with h
          omega
        · split at hdur
          · injection hdur with h
            omega
          · split at hdur
            · cases hdur
            · injection hdur with h
              omega
    have hval := startpoll_command_handler_ok pm chat creator topic options
      non_quoted d now nid h2 hdur
    refine ⟨hd0, hval, ?_⟩
    rw [hval]
    exact dictGet?_dictInsert_self pm nid _
  · intro h2
    have hge : (topic :: options).length < 3 := by
      simp only [List.length_cons]
      omega
    simp only [startpoll_command_handler]
    rw [if_pos hge]
  · intro h2 hdur
    have hge : ¬(topic :: options).length < 3 := by
      simp only [List.length_cons]
      omega
    have hlt : ¬options.length < 2 := by omega
    simp only [startpoll_command_handler]
    rw [if_neg hge]
    simp only [List.headD_cons, List.tail_cons]
    rw [if_neg hlt, hdur]
  · intro tok rest d' hsp hint hneg
    unfold parse_duration
    by_cases he : non_quoted = ""
    · subst he
      simp [splitWs, splitOnChar] at hsp
    · rw [if_neg he, hsp]
      simp [hint, hneg]

/-- C6 witness: creating a poll with two options and duration token
`"7"` in an empty store yields an active poll with a deadline seven
minutes after the start. -/
theorem startpoll_creates_active_poll_witness :
    (0 : Int) ≤ 7 ∧
    startpoll_command_handler [] 10 20 ("T" :: ["a", "b"]) "7" dt0 "p9" =
      (.created, dictInsert [] "p9"
        { chat_id := 10, creator_id := 20, topic := "T",
          options := ["a", "b"], start_time := dt0,
          end_time := if (0 : Int) < 7 then some (dt0.addMinutes (7 : Int).toNat) else none,
          status := "active", votes := [], message_id := none }) ∧
    dictGet? (startpoll_command_handler [] 10 20 ("T" :: ["a", "b"]) "7" dt0 "p9").2 "p9" =
      some
        { chat_id := 10, creator_id := 20, topic := "T",
          options := ["a", "b"], start_time := dt0,
          end_time := if (0 : Int) < 7 then some (dt0.addMinutes (7 : Int).toNat) else none,
          status := "active", votes := [], message_id := none } :=
  (startpoll_creates_active_poll [] 10 20 "T" ["a", "b"] "7" 7 dt0 "p9").1
    (by decide) (by decide)

/-- C10: when the duration argument is absent (or whitespace-only) or its
first token is not parseable as an integer, creation does not fail: it
silently uses the 5-minute default, so the created poll gets
`end_time = start_time + 5 minutes` rather than no expiration or a
rejection. -/
theorem startpoll_default_duration (pm : PollsMap) (chat creator : Int)
    (topic : String) (options : List String) (non_quoted : String)
    (now : PyDateTime) (nid : String)
    (h2 : 2 ≤ options.length)
    (hdur : non_quoted = "" ∨ splitWs non_quoted.data = [] ∨
      ∃ tok rest, splitWs non_quoted.data = tok :: rest ∧
        pyInt? (String.mk tok) = none) :
    startpoll_command_handler pm chat creator (topic :: options) non_quoted now nid =
      (.created, dictInsert pm nid
        { chat_id := chat, creator_id := creator, topic := topic,
          options := options, start_time := now,
          end_time := some (now.addMinutes 5), status := "active",
          votes := [], message_id := none }) := by
  have hpd : parse_duration non_quoted = .ok 5 := by
    unfold parse_duration
    rcases hdur with he | hsp | ⟨tok, rest, hsp, hint⟩
    · rw [if_pos he]
    · by_cases he : non_quoted = ""
      · rw [if_pos he]
      · rw [if_neg he, hsp]
    · by_cases he : non_quoted = ""
      · rw [if_pos he]
      · rw [if_neg he, hsp]
        simp [hint]
  rw [startpoll_command_handler_ok pm chat creator topic options non_quoted 5
    now nid h2 hpd]
  simp

/-- C10 witness: an unparseable duration token `"abc"` still creates the
poll, with the 5-minute default deadline. -/
theorem startpoll_default_duration_witness :
    startpoll_command_handler [] 10 20 ("T" :: ["a", "b"]) "abc" dt0 "p9" =
      (.created, dictInsert [] "p9"
        { chat_id := 10, creator_id := 20, topic := "T",
          options := ["a", "b"], start_time := dt0,
          end_time := some (dt0.addMinutes 5), status := "active",
          votes := [], message_id := none }) :=
  startpoll_default_duration [] 10 20 "T" ["a", "b"] "abc" dt0 "p9" (by decide)
    (Or.inr (Or.inr ⟨['a', 'b', 'c'], [], rfl, rfl⟩))

/-- C3: the vote handler reports exactly the outcome of the first failing
check in the order existence, status, lazy expiration, duplicate voter,
option bounds (the transcription `recordVoteSpecOutcome`); the `votes`
dict of the target poll gains exactly the new entry in the Accepted case,
and no poll's `votes` changes in any other case. -/
theorem recordVote_first_failing_check (pm : PollsMap) (u : Int) (pid : String)
    (idx : Int) (now : PyDateTime) :
    (button_callback_handler pm u pid idx now).1 =
      recordVoteSpecOutcome pm u pid idx now ∧
    (∀ s, (button_callback_handler pm u pid idx now).1 = .accepted s →
      ∃ p, dictGet? pm pid = some p ∧
        (button_callback_handler pm u pid idx now).2 =
          dictSet pm pid { p with votes := p.votes ++ [(PyKey.int u, idx)] }) ∧
    ((∀ s, (button_callback_handler pm u pid idx now).1 ≠ .accepted s) →
      ∀ pid2 p2, dictGet? pm pid2 = some p2 →
        ∃ p2', dictGet? (button_callback_handler pm u pid idx now).2 pid2 = some p2' ∧
          p2'.votes = p2.votes) := by
  cases hg : dictGet? pm pid with
  | none =>
    have hval : button_callback_handler pm u pid idx now = (.pollNotFound, pm) := by
      simp only [button_callback_handler, hg]
    have hspec : recordVoteSpecOutcome pm u pid idx now = .pollNotFound := by
      simp only [recordVoteSpecOutcome, hg]
    refine ⟨by rw [hval, hspec], ?_, ?_⟩
    · intro s hs
      rw [hval] at hs
      cases hs
    · intro _ pid2 p2 hp2
      exact ⟨p2, by rw [hval]; exact hp2, rfl⟩
  | some p =>
    by_cases h1 : p.status = "active"
    · by_cases h2 : pastEndStrict p now = true
      · have hval : button_callback_handler pm u pid idx now =
            (.pollExpired, dictSet pm pid { p with status := "closed" }) := by
          simp only [button_callback_handler, hg]
          rw [if_neg (fun hn => hn h1), if_pos h2]
        have hspec : recordVoteSpecOutcome pm u pid idx now = .pollExpired := by
          simp only [recordVoteSpecOutcome, hg]
          rw [if_neg (fun hn => hn h1), if_pos h2]
        refine ⟨by rw [hval, hspec], ?_, ?_⟩
        · intro s hs
          rw [hval] at hs
          cases hs
        · intro _ pid2 p2 hp2
          rw [hval, dictGet?_dictSet]
          by_cases hk : pid2 = pid
          · subst hk
            rw [hg] at hp2
            injection hp2 with hpp
            subst hpp
            refine ⟨{ p with status := "closed" }, ?_, rfl⟩
            rw [if_pos rfl, hg]
            rfl
          · rw [if_neg hk]
            exact ⟨p2, hp2, rfl⟩
      · cases hf : p.votes.find? (fun kv => kv.1 = PyKey.int u) with
        | some kv =>
          have hval : button_callback_handler pm u pid idx now =
              (.alreadyVoted (pyListGet p.options kv.2), pm) := by
            simp only [button_callback_handler, hg]
            rw [if_neg (fun hn => hn h1), if_neg h2]
            simp only [hf]
          have hspec : recordVoteSpecOutcome pm u pid idx now =
              .alreadyVoted (pyListGet p.options kv.2) := by
            simp only [recordVoteSpecOutcome, hg]
            rw [if_neg (fun hn => hn h1), if_neg h2]
            simp only [hf]
          refine ⟨by rw [hval, hspec], ?_, ?_⟩
          · intro s hs
            rw [hval] at hs
            cases hs
          · intro _ pid2 p2 hp2
            exact ⟨p2, by rw [hval]; exact hp2, rfl⟩
        | none =>
          by_cases h3 : 0 ≤ idx ∧ idx < (p.options.length : Int)
          · have hval : button_callback_handler pm u pid idx now =
                (.accepted (pyListGet p.options idx), dictSet pm pid
                  { p with votes := p.votes ++ [(PyKey.int u, idx)] }) := by
              simp only [button_callback_handler, hg]
              rw [if_neg (fun hn => hn h1), if_neg h2]
              simp only [hf]
              rw [if_pos h3]
            have hspec : recordVoteSpecOutcome pm u pid idx now =
                .accepted (pyListGet p.options idx) := by
              simp only [recordVoteSpecOutcome, hg]
              rw [if_neg (fun hn => hn h1), if_neg h2]
              simp only [hf]
              rw [if_pos h3]
            refine ⟨by rw [hval, hspec], ?_, ?_⟩
            · intro s hs
              exact ⟨p, rfl, by rw [hval]⟩
            · intro hns
              exact absurd
                (show (button_callback_handler pm u pid idx now).1 =
                  .accepted (pyListGet p.options idx) by rw [hval])
                (hns _)
          · have hval : button_callback_handler pm u pid idx now =
                (.invalidOption, pm) := by
              simp only [button_callback_handler, hg]
              rw [if_neg (fun hn => hn h1), if_neg h2]
              simp only [hf]
              rw [if_neg h3]
            have hspec : recordVoteSpecOutcome pm u pid idx now = .invalidOption := by
              simp only [recordVoteSpecOutcome, hg]
              rw [if_neg (fun hn => hn h1), if_neg h2]
              simp only [hf]
              rw [if_neg h3]
            refine ⟨by rw [hval, hspec], ?_, ?_⟩
            · intro s hs
              rw [hval] at hs
              cases hs
            · intro _ pid2 p2 hp2
              exact ⟨p2, by rw [hval]; exact hp2, rfl⟩
    · have hval : button_callback_handler pm u pid idx now = (.pollNotActive, pm) := by
        simp only [button_callback_handler, hg]
        rw [if_pos h1]
      have hspec : recordVoteSpecOutcome pm u pid idx now = .pollNotActive := by
        simp only [recordVoteSpecOutcome, hg]
        rw [if_pos h1]
      refine ⟨by rw [hval, hspec], ?_, ?_⟩
      · intro s hs
        rw [hval] at hs
        cases hs
      · intro _ pid2 p2 hp2
        exact ⟨p2, by rw [hval]; exact hp2, rfl⟩

/-- C3 witness: on the fixture store at `dt0` (before the deadline) the
handler accepts voter 1's vote for option 0, matching the spec-order
outcome, and appends exactly that entry. -/
theorem recordVote_first_failing_check_witness :
    ((button_callback_handler pmA 1 "p1" 0 dt0).1 =
      recordVoteSpecOutcome pmA 1 "p1" 0 dt0) ∧
    (button_callback_handler pmA 1 "p1" 0 dt0).2 =
      dictSet pmA "p1" { pollA with votes := pollA.votes ++ [(PyKey.int 1, 0)] } := by
  have h := recordVote_first_failing_check pmA 1 "p1" 0 dt0
  refine ⟨h.1, ?_⟩
  rcases h.2.1 "a" (by decide) with ⟨p, hp, hset⟩
  have hpA : p = pollA := by
    have : some p = some pollA := by
      rw [← hp]
      decide
    injection this
  rw [hset, hpA]

/-- C8: over two options with votes, in order, for indices 0, 1, 0 by
three distinct voters, the tally is `[2, 1]` with total 3, and the
two-decimal-rounded percentages are 66.67 and 33.33; in general the total
is the sum of the per-option counts. -/
theorem tally_counts_and_percentages :
    vote_counts ["a", "b"] [(PyKey.int 1, 0), (PyKey.int 2, 1), (PyKey.int 3, 0)] =
      [2, 1] ∧
    total_votes ["a", "b"] [(PyKey.int 1, 0), (PyKey.int 2, 1), (PyKey.int 3, 0)] = 3 ∧
    round2 (vote_percentage 2 3) = 6667 / 100 ∧
    round2 (vote_percentage 1 3) = 3333 / 100 ∧
    ∀ (options : List String) (votes : List (PyKey × Int)),
      total_votes options votes = (vote_counts options votes).sum := by
  refine ⟨by decide, by decide, ?_, ?_, fun _ _ => rfl⟩
  · norm_num [round2, vote_percentage, round_eq]
  · norm_num [round2, vote_percentage, round_eq]

/-- C2: `LoadAll(SaveAll(x)) = x` fails.  Saving a store holding one poll
with a single vote by integer voter id 7 and loading it back yields the
same poll except that the voter key has become the string `"7"`: JSON
object keys are strings, so `json.dump` stringifies the integer voter ids
and `load_polls_data` keeps them as strings.  Timestamps themselves
round-trip (`start_time` and the set `end_time` come back intact). -/
theorem save_load_stringifies_vote_keys :
    load_polls_data (some (.ok (save_polls_data [("p1", pollV)]))) =
      .ok [("p1", { pollV with votes := [(PyKey.str "7", 0)] })] ∧
    ({ pollV with votes := [(PyKey.str "7", 0)] } : PollRecord) ≠ pollV ∧
    load_polls_data
        (some (.ok (save_polls_data [("p0", { pollA with end_time := none })]))) =
      .ok [("p0", { pollA with end_time := none })] := by
  refine ⟨by decide, by decide, by decide⟩

/-- C9: a missing file and a JSON-decode/read failure are handled,
returning the empty mapping; but a file that decodes to valid JSON whose
`start_time` is not a valid timestamp makes `load_polls_data` raise
`ValueError` out of `datetime.fromisoformat` — `ValueError` is not in
the caught exception tuple `(json.JSONDecodeError, IOError, TypeError)`,
so the load is fatal instead of returning an empty mapping. -/
theorem load_polls_data_valueError_escapes :
    load_polls_data none = .ok [] ∧
    load_polls_data (some (.error ())) = .ok [] ∧
    load_polls_data (some (.ok [("p1", badJson)])) = .error .valueError := by
  refine ⟨rfl, rfl, by decide⟩

/-- A successful lookup is a member of the association list. -/
theorem dictGet?_mem (pm : PollsMap) (k : String) (p : PollRecord) :
    dictGet? pm k = some p → (k, p) ∈ pm := by
  induction pm with
  | nil => intro h; cases h
  | cons e rest ih =>
    intro h
    rw [dictGet?] at h
    by_cases h1 : e.1 = k
    · rw [if_pos h1] at h
      injection h with hp
      apply List.mem_cons.2
      left
      rw [← h1, ← hp]
    · rw [if_neg h1] at h
      exact List.mem_cons.2 (Or.inr (ih h))

/-- Every entry of `dictSet pm k v` is either the new binding or an entry
of the original list. -/
theorem mem_dictSet (pm : PollsMap) (k : String) (v : PollRecord) :
    ∀ e' ∈ dictSet pm k v, e' = (k, v) ∨ e' ∈ pm := by
  induction pm with
  | nil => intro e' he'; cases he'
  | cons e rest ih =>
    intro e' he'
    simp only [dictSet] at he'
    rcases List.mem_cons.1 he' with h | h
    · by_cases h1 : e.1 = k
      · rw [if_pos h1] at h
        exact Or.inl h
      · rw [if_neg h1] at h
        exact Or.inr (List.mem_cons.2 (Or.inl h))
    · rcases ih e' h with h2 | h2
      · exact Or.inl h2
      · exact Or.inr (List.mem_cons.2 (Or.inr h2))

/-- When the duplicate-voter membership test comes back empty, no entry
carries the voter's key. -/
theorem find?_voter_eq_none (votes : List (PyKey × Int)) (key : PyKey)
    (h : votes.find? (fun kv => kv.1 = key) = none) :
    ∀ kv ∈ votes, kv.1 ≠ key := by
  intro kv hm
  have hx := List.find?_eq_none.1 h kv hm
  simpa using hx

/-- The three possible state effects of one vote handler call: no change,
the lazy-expiry status rewrite, or the appended vote entry (the latter
only with the voter absent and the index in bounds). -/
theorem button_callback_handler_state_cases (pm : PollsMap) (u : Int)
    (pid : String) (idx : Int) (now : PyDateTime) :
    (button_callback_handler pm u pid idx now).2 = pm ∨
    (∃ p, dictGet? pm pid = some p ∧ p.status = "active" ∧
      pastEndStrict p now = true ∧
      (button_callback_handler pm u pid idx now).2 =
        dictSet pm pid { p with status := "closed" }) ∨
    (∃ p, dictGet? pm pid = some p ∧ p.status = "active" ∧
      pastEndStrict p now = false ∧
      p.votes.find? (fun kv => kv.1 = PyKey.int u) = none ∧
      0 ≤ idx ∧ idx < (p.options.length : Int) ∧
      (button_callback_handler pm u pid idx now).2 =
        dictSet pm pid { p with votes := p.votes ++ [(PyKey.int u, idx)] }) := by
  cases hg : dictGet? pm pid with
  | none => exact Or.inl (by simp only [button_callback_handler, hg])
  | some p =>
    by_cases h1 : p.status = "active"
    · by_cases h2 : pastEndStrict p now = true
      · have hval : button_callback_handler pm u pid idx now =
            (.pollExpired, dictSet pm pid { p with status := "closed" }) := by
          simp only [button_callback_handler, hg]
          rw [if_neg (fun hn => hn h1), if_pos h2]
        exact Or.inr (Or.inl ⟨p, rfl, h1, h2, by rw [hval]⟩)
      · have h2f : pastEndStrict p now = false := by
          cases hb : pastEndStrict p now with
          | false => rfl
          | true => exact absurd hb h2
        cases hf : p.votes.find? (fun kv => kv.1 = PyKey.int u) with
        | some kv =>
          have hval : button_callback_handler pm u pid idx now =
              (.alreadyVoted (pyListGet p.options kv.2), pm) := by
            simp only [button_callback_handler, hg]
            rw [if_neg (fun hn => hn h1), if_neg h2]
            simp only [hf]
          exact Or.inl (by rw [hval])
        | none =>
          by_cases h3 : 0 ≤ idx ∧ idx < (p.options.length : Int)
          · have hval : button_callback_handler pm u pid idx now =
                (.accepted (pyListGet p.options idx), dictSet pm pid
                  { p with votes := p.votes ++ [(PyKey.int u, idx)] }) := by
              simp only [button_callback_handler, hg]
              rw [if_neg (fun hn => hn h1), if_neg h2]
              simp only [hf]
              rw [if_pos h3]
            exact Or.inr (Or.inr ⟨p, rfl, h1, h2f, hf, h3.1, h3.2, by rw [hval]⟩)
          · have hval : button_callback_handler pm u pid idx now =
                (.invalidOption, pm) := by
              simp only [button_callback_handler, hg]
              rw [if_neg (fun hn => hn h1), if_neg h2]
              simp only [hf]
              rw [if_neg h3]
            exact Or.inl (by rw [hval])
    · have hval : button_callback_handler pm u pid idx now = (.pollNotActive, pm) := by
        simp only [button_callback_handler, hg]
        rw [if_pos h1]
      exact Or.inl (by rw [hval])

/-- How one vote handler call can change any looked-up poll's votes:
either not at all, or by appending the new voter's entry — and the
append only happens when the voter was absent and the index in bounds. -/
theorem recordVote_votes_evolution (pm : PollsMap) (u : Int) (pid : String)
    (idx : Int) (now : PyDateTime) (pid2 : String) (p2 : PollRecord)
    (hp2 : dictGet? pm pid2 = some p2) :
    ∃ p2', dictGet? (button_callback_handler pm u pid idx now).2 pid2 = some p2' ∧
      p2'.options = p2.options ∧
      (p2'.votes = p2.votes ∨
        (p2'.votes = p2.votes ++ [(PyKey.int u, idx)] ∧
          p2.votes.find? (fun kv => kv.1 = PyKey.int u) = none ∧
          0 ≤ idx ∧ idx < (p2.options.length : Int))) := by
  rcases button_callback_handler_state_cases pm u pid idx now with
    hsame | ⟨p, hg, -, -, hset⟩ | ⟨p, hg, -, -, hf, hb1, hb2, hset⟩
  · exact ⟨p2, by rw [hsame]; exact hp2, rfl, Or.inl rfl⟩
  · rw [hset, dictGet?_dictSet]
    by_cases hk : pid2 = pid
    · subst hk
      have hpp : p = p2 := by
        rw [hp2] at hg
        injection hg with hx
        exact hx.symm
      subst hpp
      refine ⟨{ p with status := "closed" }, ?_, rfl, Or.inl rfl⟩
      rw [if_pos rfl, hp2]
      rfl
    · rw [if_neg hk]
      exact ⟨p2, hp2, rfl, Or.inl rfl⟩
  · rw [hset, dictGet?_dictSet]
    by_cases hk : pid2 = pid
    · subst hk
      have hpp : p = p2 := by
        rw [hp2] at hg
        injection hg with hx
        exact hx.symm
      subst hpp
      refine ⟨{ p with votes := p.votes ++ [(PyKey.int u, idx)] }, ?_, rfl,
        Or.inr ⟨rfl, hf, hb1, hb2⟩⟩
      rw [if_pos rfl, hp2]
      rfl
    · rw [if_neg hk]
      exact ⟨p2, hp2, rfl, Or.inl rfl⟩

/-- One vote handler call preserves store well-formedness. -/
theorem recordVote_preserves_StoreWF (pm : PollsMap) (u : Int) (pid : String)
    (idx : Int) (now : PyDateTime) (hwf : StoreWF pm) :
    StoreWF (button_callback_handler pm u pid idx now).2 := by
  rcases button_callback_handler_state_cases pm u pid idx now with
    hsame | ⟨p, hg, -, -, hset⟩ | ⟨p, hg, -, -, hf, hb1, hb2, hset⟩
  · rw [hsame]
    exact hwf
  · rw [hset]
    intro e' he'
    rcases mem_dictSet pm pid _ e' he' with rfl | hmem
    · exact hwf (pid, p) (dictGet?_mem pm pid p hg)
    · exact hwf e' hmem
  · rw [hset]
    intro e' he'
    rcases mem_dictSet pm pid _ e' he' with rfl | hmem
    · have hpv := hwf (pid, p) (dictGet?_mem pm pid p hg)
      have hnotin : PyKey.int u ∉ p.votes.map Prod.fst := by
        intro hmm
        rcases List.mem_map.1 hmm with ⟨kv, hkv, hkv1⟩
        exact find?_voter_eq_none p.votes (PyKey.int u) hf kv hkv hkv1
      constructor
      · show ((p.votes ++ [(PyKey.int u, idx)]).map Prod.fst).Nodup
        rw [List.map_append]
        refine List.Nodup.append hpv.1 (by simp) ?_
        intro a ha hb
        simp only [List.map_cons, List.map_nil, List.mem_singleton] at hb
        subst hb
        exact hnotin ha
      · intro kv hkv
        rcases List.mem_append.1 hkv with hmm | hmm
        · exact hpv.2 kv hmm
        · simp only [List.mem_singleton] at hmm
          subst hmm
          exact ⟨hb1, hb2⟩
    · exact hwf e' hmem

/-- Any sequence of vote handler calls keeps the store well-formed and
never removes or rewrites an existing vote entry. -/
theorem runVotes_invariant (calls : List VoteCall) : ∀ pm : PollsMap, StoreWF pm →
    StoreWF (runVotes pm calls) ∧
    (∀ pid p k v, dictGet? pm pid = some p → (k, v) ∈ p.votes →
      ∃ p', dictGet? (runVotes pm calls) pid = some p' ∧ (k, v) ∈ p'.votes) := by
  induction calls with
  | nil =>
    intro pm hwf
    exact ⟨hwf, fun pid p k v hp hm => ⟨p, hp, hm⟩⟩
  | cons c rest ih =>
    intro pm hwf
    have hwf1 := recordVote_preserves_StoreWF pm c.user_id c.poll_id
      c.option_index c.now hwf
    have hih := ih _ hwf1
    refine ⟨hih.1, ?_⟩
    intro pid p k v hp hm
    rcases recordVote_votes_evolution pm c.user_id c.poll_id c.option_index
      c.now pid p hp with ⟨p1, hp1, -, hv⟩
    have hm1 : (k, v) ∈ p1.votes := by
      rcases hv with h | ⟨h, -, -, -⟩
      · rw [h]
        exact hm
      · rw [h]
        exact List.mem_append.2 (Or.inl hm)
    exact hih.2 pid p1 k v hp1 hm1

/-- C7, counterexample: the claim says a later `RecordVote` by the same
voter reports AlreadyVoted, for every sequence of `RecordVote` calls.  In
this pure `RecordVote` sequence voter 1 votes before the deadline
(accepted, entry written), then votes again after the deadline: the
second call reports `PollExpired`, not AlreadyVoted, because the lazy
expiration check precedes the duplicate-voter check. -/
theorem second_vote_by_same_voter_not_alreadyVoted :
    (button_callback_handler pmA 1 "p1" 0 dt0).1 = .accepted "a" ∧
    dictGet? (button_callback_handler pmA 1 "p1" 0 dt0).2 "p1" =
      some { pollA with votes := [(PyKey.int 1, 0)] } ∧
    (button_callback_handler
        (button_callback_handler pmA 1 "p1" 0 dt0).2 1 "p1" 0 dt2).1 =
      .pollExpired := by
  refine ⟨by decide, by decide, by decide⟩

/-- C7 (amended): starting from a well-formed store, after any sequence
of `RecordVote` calls the store stays well-formed — in particular every
poll's voter keys are pairwise distinct — and an entry once written is
never removed or overwritten; a later `RecordVote` by an already-recorded
voter that reaches the duplicate-voter check (poll found, still active,
not lazily expired) reports AlreadyVoted with the text of the originally
chosen option and changes nothing. -/
theorem votes_nodup_first_vote_wins (pm : PollsMap) (calls : List VoteCall)
    (hwf : StoreWF pm) :
    StoreWF (runVotes pm calls) ∧
    (∀ pid p, dictGet? (runVotes pm calls) pid = some p →
      (p.votes.map Prod.fst).Nodup) ∧
    (∀ pid p k v, dictGet? pm pid = some p → (k, v) ∈ p.votes →
      ∃ p', dictGet? (runVotes pm calls) pid = some p' ∧ (k, v) ∈ p'.votes) ∧
    (∀ u pid idx now p kv, dictGet? pm pid = some p → p.status = "active" →
      pastEndStrict p now = false →
      p.votes.find? (fun x => x.1 = PyKey.int u) = some kv →
      button_callback_handler pm u pid idx now =
        (.alreadyVoted (pyListGet p.options kv.2), pm)) := by
  have hrun := runVotes_invariant calls pm hwf
  refine ⟨hrun.1, ?_, hrun.2, ?_⟩
  · intro pid p hp
    exact (hrun.1 (pid, p) (dictGet?_mem _ _ _ hp)).1
  · intro u pid idx now p kv hg hact hpe hf
    simp only [button_callback_handler, hg]
    rw [if_neg (fun hn => hn hact), if_neg (by simp [hpe])]
    simp only [hf]

/-- C7 witness: in a store whose single poll already records a vote by
voter 7 for option 0, a second vote by voter 7 (for option 1, before the
deadline) reports AlreadyVoted naming option `"a"` and leaves the store
unchanged. -/
theorem votes_nodup_first_vote_wins_witness :
    button_callback_handler [("p1", pollV)] 7 "p1" 1 dt0 =
      (.alreadyVoted "a", [("p1", pollV)]) := by
  have h := votes_nodup_first_vote_wins [("p1", pollV)] []
    (by
      intro e he
      simp only [List.mem_singleton] at he
      subst he
      exact ⟨by decide, by decide⟩)
  exact h.2.2.2 7 "p1" 1 dt0 pollV (PyKey.int 7, 0) (by decide) rfl
    (by decide) (by decide)

end TeeabendVoting
